import Mathlib

/-!
Verification development for the Movie-Summarizer repository.

The JavaScript sources are shallowly embedded here.  JS strings are modelled
as Lean `String` / `List Char`; JS `undefined`/`null`-or-string values as
`Option String`; a JSON object field that may be absent, `null`, or a string
as `Option (Option String)` (outer `none` = key absent, `some none` = `null`).
External collaborators (the language-model provider, the filesystem) are
modelled as explicit outcome parameters handed to each stage, and the
filesystem calls a terminal stage performs are returned as an explicit
effect list.
-/

namespace MovieSummarizer

/-! ## JS primitive helpers -/

/-- Truthiness of a JS string-or-undefined/null value: `undefined`, `null`
and `""` are falsy, every other string is truthy. -/
def jsTruthyS : Option String → Bool
  | none => false
  | some s => s ≠ ""

/-- The JS expression `a || b` where `a` is a string-or-undefined/null value
and `b` a string: yields `a`'s string when `a` is truthy, else `b`. -/
def jsOrS (a : Option String) (b : String) : String :=
  match a with
  | some s => if s = "" then b else s
  | none => b

/-- Truthiness of a JSON object field (absent / null / string). -/
def jsTruthyF : Option (Option String) → Bool
  | some (some s) => s ≠ ""
  | _ => false

/-- The JS expression `field || dflt` for a JSON object field. -/
def jsOrF (a : Option (Option String)) (b : String) : String :=
  match a with
  | some (some s) => if s = "" then b else s
  | _ => b

/-- JS object-spread for one field: `{...base, ...parsed}` takes the parsed
value (even if it is `null` or `""`) when the key is present, else the base
value. -/
def spreadF (parsed : Option (Option String)) (base : Option String) : Option String :=
  match parsed with
  | some v => v
  | none => base

/-- Membership of a code point in the JS regular-expression class `\s`
(ECMAScript WhiteSpace plus LineTerminator): TAB 9, LF 10, VT 11, FF 12,
CR 13, SP 32, NBSP 160, OGHAM 5760, the U+2000..U+200A range 8192..8202,
LS 8232, PS 8233, NNBSP 8239, MMSP 8287, IDSP 12288 and BOM 65279.
`String.prototype.trim` strips exactly the same set. -/
def isJsWs (c : Char) : Bool :=
  let n := c.toNat
  n = 9 || n = 10 || n = 11 || n = 12 || n = 13 || n = 32 ||
  n = 160 || n = 5760 || (8192 ≤ n && n ≤ 8202) || n = 8232 || n = 8233 ||
  n = 8239 || n = 8287 || n = 12288 || n = 65279

/-- Strip leading JS whitespace from a character list. -/
def trimLeftL (l : List Char) : List Char := l.dropWhile isJsWs

/-- Strip trailing JS whitespace from a character list. -/
def trimRightL (l : List Char) : List Char := (l.reverse.dropWhile isJsWs).reverse

/-- The JS `String.prototype.trim` on a character list. -/
def jsTrimL (l : List Char) : List Char := trimRightL (trimLeftL l)

/-- The JS `String.prototype.trim`. -/
def jsTrimS (s : String) : String := ⟨jsTrimL s.data⟩

/-- ASCII uppercase test (code points 65..90). -/
def isUpperCh (c : Char) : Bool := 65 ≤ c.toNat && c.toNat ≤ 90

/-- ASCII model of `String.prototype.toLowerCase` applied to one character.
(JS lowercases some non-ASCII characters too, e.g. U+212A to `k`; such
characters are outside every claim considered here and are left unchanged
by this model — they are removed by the sanitizer's character filter in
either reading.) -/
def jsToLower (c : Char) : Char :=
  if isUpperCh c then Char.ofNat (c.toNat + 32) else c

/-- Lowercasing a whole string, character by character. -/
def jsToLowerS (s : String) : String := ⟨s.data.map jsToLower⟩

/-- Does `pat` occur as a substring (contiguous) of `l`? Models
`String.prototype.includes` / a regex literal search. -/
def containsSubL (pat : List Char) : List Char → Bool
  | [] => pat.isPrefixOf ([] : List Char)
  | c :: rest => pat.isPrefixOf (c :: rest) || containsSubL pat rest

/-- `String.prototype.includes`. -/
def containsSubS (pat s : String) : Bool := containsSubL pat.data s.data

/-- JS `String.prototype.replace` with a plain-string pattern: replaces the
first occurrence of `pat` only. -/
def replaceFirstL (pat repl : List Char) : List Char → List Char
  | [] => []
  | c :: rest =>
    if pat.isPrefixOf (c :: rest) then repl ++ (c :: rest).drop pat.length
    else c :: replaceFirstL pat repl rest

/-- JS `String.prototype.replace` with a plain-string pattern (strings). -/
def replaceFirstS (pat repl s : String) : String := ⟨replaceFirstL pat.data repl.data s.data⟩

/-- JS `String.prototype.endsWith`. -/
def jsEndsWithS (s pat : String) : Bool := pat.data.isSuffixOf s.data

/-- JS `String.prototype.startsWith`. -/
def jsStartsWithS (s pat : String) : Bool := pat.data.isPrefixOf s.data

/-! ## Text Sanitizer (`src/utils.js`, `sanitizeFilename`)

```js
export function sanitizeFilename(name) {
    if (!name || typeof name !== 'string') return 'untitled_movie';
    return name
        .toLowerCase()
        .replace(/\s+/g, '_')
        .replace(/[^a-z0-9_\-\.]/gi, '')
        .replace(/\.+/g, '.')
        .slice(0, 100);
}
```
-/

/-- `.replace(/\s+/g, '_')`: each maximal run of JS whitespace becomes a
single underscore.  The boolean argument records whether the previous
character was whitespace (i.e. whether we are inside a run). -/
def wsRep (prevWs : Bool) : List Char → List Char
  | [] => []
  | c :: rest =>
    if isJsWs c then
      if prevWs then wsRep true rest else '_' :: wsRep true rest
    else c :: wsRep false rest

/-- The character class kept by `.replace(/[^a-z0-9_\-\.]/gi, '')` — with the
`i` flag the class is case-insensitive, so ASCII letters of both cases,
digits, `_`, `-` (45) and `.` (46) survive. -/
def allowedChar (c : Char) : Bool :=
  let n := c.toNat
  (97 ≤ n && n ≤ 122) || (65 ≤ n && n ≤ 90) || (48 ≤ n && n ≤ 57) ||
  n = 95 || n = 45 || n = 46

/-- `.replace(/\.+/g, '.')`: each maximal run of periods becomes a single
period.  The boolean argument records whether the previous character was a
period. -/
def dotRep (prevDot : Bool) : List Char → List Char
  | [] => []
  | c :: rest =>
    if c = '.' then
      if prevDot then dotRep true rest else '.' :: dotRep true rest
    else c :: dotRep false rest

/-- The non-empty-input pipeline of `sanitizeFilename`: lowercase, whitespace
runs to `_`, drop disallowed characters, collapse period runs, then
`.slice(0, 100)` (all characters are ASCII at that point, so the UTF-16 slice
is `List.take 100`). -/
def sanitizeSteps (l : List Char) : List Char :=
  List.take 100 (dotRep false (List.filter allowedChar (wsRep false (l.map jsToLower))))

/-- `sanitizeFilename` on a character list.  For string inputs the JS guard
`!name` is true exactly for `""`; the `typeof` branch (non-string input) is
outside this model. -/
def sanitizeList (l : List Char) : List Char :=
  if l = [] then "untitled_movie".data else sanitizeSteps l

/-- `sanitizeFilename` from `src/utils.js`. -/
def sanitizeFilename (s : String) : String := ⟨sanitizeList s.data⟩

/-! ## Structured-Text Extractor (`src/utils.js`, `extractJsonFromString`)

```js
export function extractJsonFromString(str) {
    if (typeof str !== 'string') { ... return str; }
    const match = str.match(/```(?:json)?\s*([\s\S]*?)\s*```/);
    if (match && match[1]) {
        return match[1].trim();
    }
    return str.trim();
}
```

The regex semantics are embedded directly.  A match attempt at a position
requires three backticks; `(?:json)?` greedily takes a literal `json` when
present (its four characters contain no backtick, so un-taking it can never
turn a failed attempt into a successful one); the greedy `\s*` skips
whitespace; the lazy `([\s\S]*?)\s*` makes the capture run to the first
following triple backtick with its trailing whitespace stripped. -/

/-- Consume the optional `json` tag after an opening fence. -/
def dropJsonTag (l : List Char) : List Char :=
  if l.take 4 = "json".data then l.drop 4 else l

/-- Split at the first occurrence of three consecutive backticks: returns
the part before the fence and the part after it, or `none` when there is no
fence. -/
def splitAtFence : List Char → Option (List Char × List Char)
  | [] => none
  | c :: rest =>
    if ("```".data).isPrefixOf (c :: rest) then some ([], (c :: rest).drop 3)
    else
      match splitAtFence rest with
      | some (pre, post) => some (c :: pre, post)
      | none => none

/-- Attempt the fenced-block regex match at the head of `l`: `l` must start
with three backticks; the capture group (with surrounding whitespace already
stripped, as the regex's two `\s*` do) is returned, or `none` when no closing
fence follows. -/
def tryMatchAt (l : List Char) : Option (List Char) :=
  if ("```".data).isPrefixOf l then
    match splitAtFence (trimLeftL (dropJsonTag (l.drop 3))) with
    | some (content, _) => some (trimRightL content)
    | none => none
  else none

/-- Leftmost match of the fenced-block regex: try each start position from
the left, as the JS engine does. -/
def jsStrMatchFence : List Char → Option (List Char)
  | [] => none
  | c :: rest =>
    match tryMatchAt (c :: rest) with
    | some g => some g
    | none => jsStrMatchFence rest

/-- `extractJsonFromString` on a character list: when the regex matches and
its capture group is truthy (non-empty), return the group trimmed; otherwise
return the whole input trimmed. -/
def extractL (l : List Char) : List Char :=
  match jsStrMatchFence l with
  | some g => if g = [] then jsTrimL l else jsTrimL g
  | none => jsTrimL l

/-- `extractJsonFromString` from `src/utils.js` (string inputs; the
non-string early return is outside this model). -/
def extractJsonFromString (s : String) : String := ⟨extractL s.data⟩

/-! ## Data model

The pipeline record threaded through the canonical pipeline of `src/main.js`.
A `none` field is one the JS object does not carry (yet).  `writtenFilePath`
distinguishes "key absent" (`none`) from "key set to `null`"
(`some none`). -/

/-- The normalized `movieDataForNextStep` shape handed to later stages
(`src/agents/movieDataAndThemeAgent.js` lines 114-123, and the
`movieDataFromOMDB` objects built in `movieAgent.js`).  `title` can be
`null`/`undefined` in JS, hence `Option`; `error` is `null`/absent or a
string. -/
structure MovieMetadata where
  title : Option String := none
  year : String := "N/A"
  imdbRating : String := "N/A"
  mainCast : String := "N/A"
  genre : String := "N/A"
  plotSummary : String := "N/A"
  Response : String := "False"
  error : Option String := none
  deriving DecidableEq, Repr

/-- The JSON object obtained from `JSON.parse` of the (extracted) model
output.  Every field may be absent, `null`, or a string; JSON values of
other types are outside this model (the provider contract asks for strings
only). -/
structure ParsedMovieJson where
  Title : Option (Option String) := none
  Year : Option (Option String) := none
  imdbRating : Option (Option String) := none
  Actors : Option (Option String) := none
  Genre : Option (Option String) := none
  Plot : Option (Option String) := none
  Response : Option (Option String) := none
  Error : Option (Option String) := none
  MovieTheme : Option (Option String) := none
  deriving DecidableEq, Repr

/-- The pipeline record of `src/main.js`: entry `\x7b raw_title \x7d`, each
stage spreads its input and adds fields. -/
structure PipelineRecord where
  raw_title : String
  refinedTitle : Option String := none
  titleIsUncertain : Option Bool := none
  movieDataFromOMDB : Option MovieMetadata := none
  generatedTheme : Option String := none
  finalMessage : Option String := none
  writtenFilePath : Option (Option String) := none
  deriving DecidableEq, Repr

/-- A filesystem call a terminal stage performs (`fs.mkdir` with
`recursive: true`, `fs.writeFile`). -/
inductive FsEffect where
  | mkdirp (dir : String)
  | fileWrite (path content : String)
  deriving DecidableEq, Repr

/-- Outcome of the combined data-and-theme model call: either the invoke /
`JSON.parse` chain threw (`failure` carries `error.message`), or it produced
a parsed JSON object. -/
inductive LlmDataOutcome where
  | failure (msg : String)
  | success (parsed : ParsedMovieJson)
  deriving DecidableEq, Repr

/-- Outcome of the file-content model call of the file-writer agent: `ok`
carries the parsed `filename` and `file_content` strings; `bad` covers an
invoke error, a `JSON.parse` error, or shapes rejected by the validity
check (all of them lead to the same fallback path). -/
inductive FileLlmOutcome where
  | ok (filename content : String)
  | bad (msg : String)
  deriving DecidableEq, Repr

/-- Outcome of `nativeFileSystemWriteTool`: both calls succeed, `fs.mkdir`
throws, or `fs.writeFile` throws (carrying the JS `error.message`). -/
inductive FsOutcome where
  | ok
  | mkdirFail (msg : String)
  | writeFail (msg : String)
  deriving DecidableEq, Repr

/-- The fixed output directory of `src/main.js`. -/
def OUTPUT_DIR : String := "movie_details"

/-- `path.join(outputDir, filename)` for the simple relative segments used
here. -/
def pathJoin (dir file : String) : String := dir ++ "/" ++ file

/-! ## Title Refinement Stage
(`createTitleRefinementAgent`, `movieAgent.js` lines 408-434; this is the
agent module `src/main.js` imports.)

The model-call outcome is the `refined_title_text` string returned by the
`LLMChain` (a throwing call propagates out of the stage and produces no
record, so completed runs are parameterized by this string). -/

/-- The title-refinement stage body:

```js
let refinedTitle = result.refined_title_text ? result.refined_title_text.trim()
                                             : inputObject.raw_title;
let isUncertain = false;
if (refinedTitle.endsWith(" (UNCERTAIN)")) {
    refinedTitle = refinedTitle.replace(" (UNCERTAIN)", "").trim();
    isUncertain = true;
}
return { ...inputObject, refinedTitle, titleIsUncertain: isUncertain };
```
-/
def titleRefinementAgent (r : PipelineRecord) (refinedTitleText : String) : PipelineRecord :=
  let t0 := if refinedTitleText = "" then r.raw_title else jsTrimS refinedTitleText
  if jsEndsWithS t0 " (UNCERTAIN)" then
    { r with refinedTitle := some (jsTrimS (replaceFirstS " (UNCERTAIN)" "" t0)),
             titleIsUncertain := some true }
  else
    { r with refinedTitle := some t0, titleIsUncertain := some false }

/-! ## Metadata Acquisition + Theme Stage
(`createMovieDataAndThemeAgent`, `src/agents/movieDataAndThemeAgent.js`.)

The working object `movieDataWithTheme` before conversion to
`movieDataForNextStep`. -/

/-- The mutable `movieDataWithTheme` object: all keys are present from the
initial literal on (values may become `null` via the spread of the parsed
JSON). -/
structure MovieDataWithTheme where
  Title : Option String
  Year : Option String
  imdbRating : Option String
  Actors : Option String
  Genre : Option String
  Plot : Option String
  Response : String
  MovieTheme : Option String
  Error : Option String
  deriving DecidableEq, Repr

/-- The initial `movieDataWithTheme` literal (lines 63-73):
`Title: refinedTitle || raw_title || "N/A"`, everything else fixed. -/
def combinedBase (r : PipelineRecord) : MovieDataWithTheme :=
  { Title := some (jsOrS r.refinedTitle (if r.raw_title = "" then "N/A" else r.raw_title))
    Year := some "N/A"
    imdbRating := some "N/A"
    Actors := some "N/A"
    Genre := some "N/A"
    Plot := some "N/A"
    Response := "False"
    MovieTheme := some "Theme could not be determined due to processing error."
    Error := some "Initial error before LLM call or due to uncertain title." }

/-- Lines 87-97: spread the parsed JSON over the base object, then force
`Title`, `Response` and `MovieTheme`, then backfill `Error` when the model
signalled not-found without an error message. -/
def applyParsed (base : MovieDataWithTheme) (refinedTitle : Option String)
    (p : ParsedMovieJson) : MovieDataWithTheme :=
  let merged : MovieDataWithTheme :=
    { Title := if jsTruthyF p.Title then some (jsOrF p.Title "") else refinedTitle
      Year := spreadF p.Year base.Year
      imdbRating := spreadF p.imdbRating base.imdbRating
      Actors := spreadF p.Actors base.Actors
      Genre := spreadF p.Genre base.Genre
      Plot := spreadF p.Plot base.Plot
      Response := if p.Response = some (some "True") then "True" else "False"
      MovieTheme := some (jsOrF p.MovieTheme
        "Theme could not be determined (LLM response missing theme).")
      Error := spreadF p.Error base.Error }
  if merged.Response = "False" && !(jsTruthyS merged.Error) then
    { merged with Error := some "LLM indicated movie not found or error simulating data." }
  else merged

/-- Lines 114-123: the `movieDataForNextStep` mapping. -/
def movieDataForNextStep (m : MovieDataWithTheme) : MovieMetadata :=
  { title := m.Title
    year := jsOrS m.Year "N/A"
    imdbRating := jsOrS m.imdbRating "N/A"
    mainCast := jsOrS m.Actors "N/A"
    genre := jsOrS m.Genre "N/A"
    plotSummary := jsOrS m.Plot "N/A"
    Response := m.Response
    error := m.Error }

/-- The combined metadata-and-theme stage.  The returned flag records
whether the model provider was invoked (the stage performs no other
external call: the OMDB API is only simulated through the same model
call).  JS truthiness of `titleIsUncertain` is `some true` here, since the
upstream stage stores an actual boolean. -/
def movieDataAndThemeAgent (r : PipelineRecord) (o : LlmDataOutcome) :
    PipelineRecord × Bool :=
  let base := combinedBase r
  if r.titleIsUncertain = some true then
    let msg := "Cannot reliably fetch data or generate theme for uncertain title: \"" ++
      jsOrS r.refinedTitle r.raw_title ++ "\""
    let m := { base with Error := some msg }
    ({ r with movieDataFromOMDB := some (movieDataForNextStep m),
              generatedTheme := m.MovieTheme }, false)
  else
    match o with
    | .success p =>
      let m := applyParsed base r.refinedTitle p
      ({ r with movieDataFromOMDB := some (movieDataForNextStep m),
                generatedTheme := m.MovieTheme }, true)
    | .failure msg =>
      let m := { base with Error := some ("LLM processing error: " ++ msg),
                           Response := "False", Plot := some "N/A",
                           MovieTheme := some "Theme could not be determined due to processing error." }
      ({ r with movieDataFromOMDB := some (movieDataForNextStep m),
                generatedTheme := m.MovieTheme }, true)

/-! ## Flat-script metadata simulator
(`omdbSimulatorRunnable`, `movieAgent.js` lines 203-268 — the variant stage
that truncates the actor list.) -/

/-- Outcome of the flat simulator's model call + `JSON.parse`. -/
inductive OmdbSimOutcome where
  | failure (msg : String)
  | success (data : ParsedMovieJson)
  deriving DecidableEq, Repr

/-- JS `String.prototype.split(',')` on a character list: the comma-separated
segments, in order (an empty string yields one empty segment, as in JS). -/
def splitComma : List Char → List (List Char)
  | [] => [[]]
  | c :: rest =>
    if c = ',' then [] :: splitComma rest
    else
      match splitComma rest with
      | s :: ss => (c :: s) :: ss
      | [] => [[c]]

/-- `String.prototype.split(',')` on a string. -/
def splitCommaS (a : String) : List String := (splitComma a.data).map String.mk

/-- `String(data.Actors).split(',').map(actor => actor.trim()).slice(0,5)`:
the comma-separated actor names, trimmed, truncated to at most five. -/
def castList (a : String) : List String := ((splitCommaS a).map jsTrimS).take 5

/-- Line 249: `(data.Actors ? String(data.Actors).split(',')
.map(actor => actor.trim()).slice(0,5).join(', ') : 'N/A') || 'N/A'`.
(A falsy `Actors` value yields `'N/A'` directly; the outer `|| 'N/A'` also
catches a join that came out empty.) -/
def omdbCast (actors : Option (Option String)) : String :=
  match actors with
  | some (some a) =>
    if a = "" then "N/A"
    else jsOrS (some (String.intercalate ", " (castList a))) "N/A"
  | _ => "N/A"

/-- The flat-script OMDB simulator stage.  When `refinedTitle` is absent the
JS code would throw a `TypeError` (it calls `.replace` on `undefined`); the
flat pipeline always sets `refinedTitle` in its first stage, so that case is
modelled as returning the record unchanged and is not used by any claim. -/
def omdbSimulatorRunnable (r : PipelineRecord) (o : OmdbSimOutcome) : PipelineRecord :=
  match r.refinedTitle with
  | none => r
  | some rt =>
    if rt = "" || jsStartsWithS rt "UNCERTAIN:" then
      let md : MovieMetadata :=
        { error := some ("OMDB LLM Simulator: Cannot reliably simulate for title: " ++ rt)
          title := some (replaceFirstS "UNCERTAIN: " "" rt)
          plotSummary := "N/A", genre := "N/A", year := "N/A"
          imdbRating := "N/A", mainCast := "N/A", Response := "False" }
      { r with movieDataFromOMDB := some md }
    else
      match o with
      | .failure msg =>
        let md : MovieMetadata :=
          { error := some ("LLM OMDB Sim critical error for title \"" ++ rt ++ "\": " ++ msg)
            title := some rt
            plotSummary := "N/A", genre := "N/A", year := "N/A"
            imdbRating := "N/A", mainCast := "N/A", Response := "False" }
        { r with movieDataFromOMDB := some md }
      | .success d =>
        if d.Response = some (some "False") then
          let md : MovieMetadata :=
            { error := some ("LLM Sim: " ++
                jsOrF d.Error "LLM indicated movie not found or error.")
              title := some (jsOrF d.Title rt)
              plotSummary := "N/A", genre := "N/A", year := "N/A"
              imdbRating := "N/A", mainCast := "N/A", Response := "False" }
          { r with movieDataFromOMDB := some md }
        else
          let md : MovieMetadata :=
            { title := some (jsOrF d.Title rt)
              year := jsOrF d.Year "N/A"
              imdbRating := jsOrF d.imdbRating "N/A"
              mainCast := omdbCast d.Actors
              genre := jsOrF d.Genre "N/A"
              plotSummary := jsOrF d.Plot "N/A"
              Response := "True"
              error := none }
          { r with movieDataFromOMDB := some md }

/-! ## Not-Found Branch (`handleMovieNotFoundOrUncertain`, `src/main.js`
lines 27-48) and the branch condition (lines 51-53). -/

/-- The JS property access `input.movieDataFromOMDB.Error` (capital E).
`movieDataForNextStep` carries only a lowercase `error` key, so this access
always yields `undefined` on records of the canonical pipeline. -/
def metadataErrorUpper (_m : MovieMetadata) : Option String := none

/-- `input.movieDataFromOMDB?.title || input.refinedTitle || input.raw_title
|| "the provided movie"`. -/
def titleForMessage (r : PipelineRecord) : String :=
  jsOrS (r.movieDataFromOMDB.bind (·.title))
    (jsOrS r.refinedTitle
      (if r.raw_title = "" then "the provided movie" else r.raw_title))

/-- The reason string selected by the if/else-if chain of lines 29-37:
uncertainty first, then a (dead, see `metadataErrorUpper`) error branch,
then the generic `Response === "False"` explanation, else the preset
default. -/
def notFoundReason (r : PipelineRecord) : String :=
  if r.titleIsUncertain = some true then
    "The initial movie title (\"" ++ r.raw_title ++
      "\") was too uncertain for reliable processing. Refined attempt: \"" ++
      (r.refinedTitle.getD "undefined") ++ "\"."
  else if r.movieDataFromOMDB.isSome &&
      jsTruthyS (r.movieDataFromOMDB.bind metadataErrorUpper) then
    "Reason from data/theme agent for \"" ++ titleForMessage r ++ "\": " ++
      (r.movieDataFromOMDB.bind metadataErrorUpper).getD ""
  else if r.movieDataFromOMDB.map (·.Response) = some "False" then
    "The data/theme agent could not find details for \"" ++ titleForMessage r ++
      "\" (Response: False)."
  else
    "The movie data/theme agent indicated the movie was not found or an error occurred."

/-- The Not-Found Branch: no filesystem call is made (the JS lambda body
contains none, hence the empty effect list), `finalMessage` is set, and
`writtenFilePath` is set to `null`. -/
def handleMovieNotFoundOrUncertain (r : PipelineRecord) :
    PipelineRecord × List FsEffect :=
  ({ r with
      finalMessage := some ("Processing halted for \"" ++ titleForMessage r ++
        "\": " ++ notFoundReason r)
      writtenFilePath := some none }, [])

/-- `isMovieNotFoundCondition`: `input.movieDataFromOMDB?.Response ===
"False"`. -/
def isMovieNotFoundCondition (r : PipelineRecord) : Bool :=
  match r.movieDataFromOMDB with
  | some m => m.Response = "False"
  | none => false

/-! ## Write Branch (`createFileWriterAgent`, `movieAgent.js` lines
435-586; this is the agent module `src/main.js` imports). -/

/-- The `detailsForFileLlm` object (lines 511-520), assembled from the
metadata value `m` of `input.movieDataFromOMDB` (the JS code throws when
that field is absent; the branch only runs with it set). -/
structure FileDetails where
  title : String
  year : String
  imdbRating : String
  mainCast : String
  genre : String
  plotSummary : String
  movieTheme : String
  omdbError : String
  deriving DecidableEq, Repr

/-- Lines 511-520. -/
def detailsForFileLlm (r : PipelineRecord) (m : MovieMetadata) : FileDetails :=
  { title := jsOrS m.title (jsOrS r.refinedTitle "Unknown Movie")
    year := if m.year = "" then "N/A" else m.year
    imdbRating := if m.imdbRating = "" then "N/A" else m.imdbRating
    mainCast := if m.mainCast = "" then "N/A" else m.mainCast
    genre := if m.genre = "" then "N/A" else m.genre
    plotSummary := if m.plotSummary = "" then "N/A" else m.plotSummary
    movieTheme := jsOrS r.generatedTheme "Theme could not be determined."
    omdbError := jsOrS m.error "N/A" }

/-- The manually constructed fallback file content (lines 559-568). -/
def fallbackFileContent (d : FileDetails) : String :=
  let themeLine :=
    if d.movieTheme ≠ "" &&
        !(containsSubS "could not be determined" (jsToLowerS d.movieTheme)) then
      d.movieTheme
    else "Theme could not be determined."
  "Movie Title: " ++ d.title ++ " (" ++ d.year ++ ")\n" ++
  "--------------------------------------\n" ++
  "IMDb Rating:\n  " ++ d.imdbRating ++ "\n\n" ++
  "Main Cast:\n  " ++ d.mainCast ++ "\n\n" ++
  "Genre(s):\n  " ++ d.genre ++ "\n\n" ++
  "Movie Theme:\n  " ++ themeLine ++ "\n\n" ++
  "Plot Summary:\n  " ++ d.plotSummary ++ "\n\n" ++
  "--- Fallback Content Note ---\n" ++
  "This content was generated due to an issue with the LLM producing the structured file details.\n" ++
  "OMDB/Theme Agent Error (if any): " ++ d.omdbError ++ "\n"

/-- The Write Branch.  `m` is the value of `input.movieDataFromOMDB`.  The
effect list records the filesystem calls `nativeFileSystemWriteTool`
performs (`fs.mkdir` always; `fs.writeFile` unless the mkdir already
threw).  Both the success return (line 576) and the write-error return
(line 580) spread the input and set `finalMessage` and `writtenFilePath` —
note the error path also stores `filePath`, not `null`. -/
def fileWriterAgent (r : PipelineRecord) (m : MovieMetadata)
    (o : FileLlmOutcome) (fso : FsOutcome) : PipelineRecord × List FsEffect :=
  let d := detailsForFileLlm r m
  let generated :=
    match o with
    | .ok f c => if f = "" || c = "" then none else some (sanitizeFilename f, c)
    | .bad _ => none
  let finalFilename :=
    match generated with
    | some (f, _) => f
    | none => sanitizeFilename d.title ++ ".txt"
  let finalFileContent :=
    match generated with
    | some (_, c) => c
    | none => fallbackFileContent d
  let wasLlmSuccessful := generated.isSome
  let filePath := pathJoin OUTPUT_DIR finalFilename
  match fso with
  | .ok =>
    ({ r with
        finalMessage := some ("Successfully wrote movie details for \"" ++ d.title ++
          "\" to: " ++ filePath ++ " (LLM generated content/name: " ++
          (if wasLlmSuccessful then "true" else "false") ++ ")")
        writtenFilePath := some (some filePath) },
     [.mkdirp OUTPUT_DIR, .fileWrite filePath finalFileContent])
  | .mkdirFail msg =>
    ({ r with
        finalMessage := some ("Error writing file \"" ++ filePath ++ "\" for \"" ++
          d.title ++ "\": " ++ msg)
        writtenFilePath := some (some filePath) },
     [.mkdirp OUTPUT_DIR])
  | .writeFail msg =>
    ({ r with
        finalMessage := some ("Error writing file \"" ++ filePath ++ "\" for \"" ++
          d.title ++ "\": " ++ msg)
        writtenFilePath := some (some filePath) },
     [.mkdirp OUTPUT_DIR, .fileWrite filePath finalFileContent])

/-! ## Canonical pipeline (`src/main.js`): title refinement, combined
metadata/theme acquisition, then the branch between the Not-Found Branch
and the Write Branch. -/

/-- The `initialInput` object `\x7b raw_title: rawUserMovieTitle \x7d`. -/
def initialRecord (t : String) : PipelineRecord := { raw_title := t }

/-- One completed run of `fullMovieProcessingSequence`, parameterized by the
outcomes of the external calls the stages make. -/
def processMoviePipeline (t : String) (titleText : String) (o2 : LlmDataOutcome)
    (o3 : FileLlmOutcome) (fso : FsOutcome) : PipelineRecord × List FsEffect :=
  let r1 := titleRefinementAgent (initialRecord t) titleText
  let r2 := (movieDataAndThemeAgent r1 o2).1
  if isMovieNotFoundCondition r2 then
    handleMovieNotFoundOrUncertain r2
  else
    match r2.movieDataFromOMDB with
    | some m => fileWriterAgent r2 m o3 fso
    | none => (r2, [])

/-! ## Startup credential checks

`src/main.js` imports `src/llm_config.js`, whose module body exits with
status 1 when `GOOGLE_API_KEY` is falsy; `src/main.js` itself only prints a
warning when `OMDB_API_KEY` is falsy and proceeds to run the pipeline. -/

/-- What the process does at startup with respect to the two credentials. -/
inductive StartupAction where
  | exitCode (n : Nat)
  | warnThenRun
  | run
  deriving DecidableEq, Repr

/-- The startup behaviour of the canonical entry point, as a function of
the two environment variables (absent or set to some string). -/
def startupCheck (googleKey omdbKey : Option String) : StartupAction :=
  if !(jsTruthyS googleKey) then .exitCode 1
  else if !(jsTruthyS omdbKey) then .warnThenRun
  else .run

/-! ## Lemmas about the Text Sanitizer -/

/-- Characters the sanitizer's output may contain: the lowercase reading of
`allowedChar` (the output is lowercased before the filter, so the uppercase
half of the class never survives). -/
def allowedLower (c : Char) : Bool := allowedChar c && !(isUpperCh c)

/-- No two adjacent periods. -/
def noDD : List Char → Bool
  | [] => true
  | [_] => true
  | a :: b :: rest => !(a == '.' && b == '.') && noDD (b :: rest)

theorem allowedChar_not_ws {c : Char} (h : allowedChar c = true) : isJsWs c = false := by
  rw [← Bool.not_eq_true]
  intro hw
  simp only [allowedChar, Bool.or_eq_true, Bool.and_eq_true, decide_eq_true_eq] at h
  simp only [isJsWs, Bool.or_eq_true, Bool.and_eq_true, decide_eq_true_eq] at hw
  omega

theorem charOfNat_toNat {n : Nat} (h1 : 97 ≤ n) (h2 : n ≤ 122) :
    (Char.ofNat n).toNat = n := by
  have hv : n.isValidChar := Or.inl (by omega)
  rw [Char.ofNat, dif_pos hv]
  rfl

theorem jsToLower_not_upper (c : Char) : isUpperCh (jsToLower c) = false := by
  unfold jsToLower
  by_cases h : isUpperCh c = true
  · rw [if_pos h]
    have hb : 65 ≤ c.toNat ∧ c.toNat ≤ 90 := by
      simpa only [isUpperCh, Bool.and_eq_true, decide_eq_true_eq] using h
    have ht : (Char.ofNat (c.toNat + 32)).toNat = c.toNat + 32 :=
      charOfNat_toNat (by omega) (by omega)
    rw [← Bool.not_eq_true]
    intro hu
    simp only [isUpperCh, ht, Bool.and_eq_true, decide_eq_true_eq] at hu
    omega
  · rw [if_neg h]
    rwa [Bool.not_eq_true] at h

theorem wsRep_mem {c : Char} : ∀ {b : Bool} {l : List Char},
    c ∈ wsRep b l → c = '_' ∨ c ∈ l := by
  intro b l
  induction l generalizing b with
  | nil => intro h; cases h
  | cons a rest ih =>
    intro h
    by_cases ha : isJsWs a = true
    · cases b with
      | true =>
        simp only [wsRep, ha, if_pos] at h
        rcases ih h with h1 | h1
        · exact Or.inl h1
        · exact Or.inr (List.mem_cons_of_mem _ h1)
      | false =>
        simp only [wsRep, ha, if_pos] at h
        rcases List.mem_cons.mp h with h1 | h1
        · exact Or.inl h1
        · rcases ih h1 with h2 | h2
          · exact Or.inl h2
          · exact Or.inr (List.mem_cons_of_mem _ h2)
    · simp only [wsRep, ha, if_neg, Bool.false_eq_true, not_false_iff] at h
      rcases List.mem_cons.mp h with h1 | h1
      · exact Or.inr (h1 ▸ List.mem_cons_self a rest)
      · rcases ih h1 with h2 | h2
        · exact Or.inl h2
        · exact Or.inr (List.mem_cons_of_mem _ h2)

theorem dotRep_mem {c : Char} : ∀ {b : Bool} {l : List Char},
    c ∈ dotRep b l → c = '.' ∨ c ∈ l := by
  intro b l
  induction l generalizing b with
  | nil => intro h; cases h
  | cons a rest ih =>
    intro h
    by_cases ha : a = '.'
    · cases b with
      | true =>
        simp only [dotRep, ha, if_pos] at h
        rcases ih h with h1 | h1
        · exact Or.inl h1
        · exact Or.inr (List.mem_cons_of_mem _ h1)
      | false =>
        simp only [dotRep, ha, if_pos] at h
        rcases List.mem_cons.mp h with h1 | h1
        · exact Or.inl h1
        · rcases ih h1 with h2 | h2
          · exact Or.inl h2
          · exact Or.inr (List.mem_cons_of_mem _ h2)
    · simp only [dotRep, ha, if_neg, not_false_iff] at h
      rcases List.mem_cons.mp h with h1 | h1
      · exact Or.inr (h1 ▸ List.mem_cons_self a rest)
      · rcases ih h1 with h2 | h2
        · exact Or.inl h2
        · exact Or.inr (List.mem_cons_of_mem _ h2)

theorem sanitizeSteps_chars {l : List Char} {c : Char}
    (h : c ∈ sanitizeSteps l) : allowedLower c = true := by
  have h1 : c ∈ dotRep false (List.filter allowedChar (wsRep false (l.map jsToLower))) :=
    List.mem_of_mem_take h
  rcases dotRep_mem h1 with hdot | h2
  · subst hdot; decide
  · have hall : allowedChar c = true := List.of_mem_filter h2
    have h3 : c ∈ wsRep false (l.map jsToLower) := List.mem_of_mem_filter h2
    rcases wsRep_mem h3 with hus | h4
    · subst hus; decide
    · rcases List.mem_map.mp h4 with ⟨a, _, rfl⟩
      simp only [allowedLower, hall, jsToLower_not_upper, Bool.not_false, Bool.and_self]

theorem sanitizeSteps_length (l : List Char) : (sanitizeSteps l).length ≤ 100 := by
  unfold sanitizeSteps
  rw [List.length_take]
  exact min_le_left _ _

theorem dotRep_true_head {l : List Char} {h : Char} {t : List Char}
    (he : dotRep true l = h :: t) : h ≠ '.' := by
  induction l generalizing t with
  | nil => cases he
  | cons a rest ih =>
    by_cases ha : a = '.'
    · simp only [dotRep, ha, if_pos] at he
      exact ih he
    · simp only [dotRep, ha, if_neg, not_false_iff] at he
      cases he
      exact ha

theorem noDD_dotRep : ∀ (b : Bool) (l : List Char), noDD (dotRep b l) = true := by
  intro b l
  induction l generalizing b with
  | nil => cases b <;> rfl
  | cons a rest ih =>
    by_cases ha : a = '.'
    · cases b with
      | true =>
        simp only [dotRep, ha, if_pos]
        exact ih true
      | false =>
        simp only [dotRep, ha, if_pos]
        cases he : dotRep true rest with
        | nil => rfl
        | cons h t =>
          have hh : h ≠ '.' := dotRep_true_head he
          have hD : noDD (h :: t) = true := he ▸ ih true
          simp only [noDD, hD, Bool.and_true, Bool.not_eq_true', Bool.and_eq_false_iff]
          right
          simpa using hh
    · simp only [dotRep, ha, if_neg, not_false_iff]
      cases he : dotRep false rest with
      | nil => rfl
      | cons h t =>
        have hD : noDD (h :: t) = true := he ▸ ih false
        simp only [noDD, hD, Bool.and_true, Bool.not_eq_true', Bool.and_eq_false_iff]
        left
        simpa using ha

theorem noDD_tail {a : Char} {l : List Char} (h : noDD (a :: l) = true) :
    noDD l = true := by
  cases l with
  | nil => rfl
  | cons b t =>
    simp only [noDD, Bool.and_eq_true] at h
    exact h.2

theorem noDD_take : ∀ (n : Nat) (l : List Char), noDD l = true → noDD (l.take n) = true := by
  intro n l
  induction l generalizing n with
  | nil => intro _; cases n <;> rfl
  | cons a rest ih =>
    intro h
    cases n with
    | zero => rfl
    | succ m =>
      simp only [List.take_succ_cons]
      cases rest with
      | nil => simp [noDD]
      | cons b t =>
        cases m with
        | zero => rfl
        | succ k =>
          simp only [noDD, Bool.and_eq_true] at h
          have h2 : noDD ((b :: t).take (k + 1)) = true := ih (k + 1) h.2
          simp only [List.take_succ_cons, noDD, Bool.and_eq_true]
          exact ⟨h.1, by simpa only [List.take_succ_cons] using h2⟩

theorem sanitizeSteps_noDD (l : List Char) : noDD (sanitizeSteps l) = true :=
  noDD_take 100 _ (noDD_dotRep false _)

theorem map_fix {f : Char → Char} : ∀ {l : List Char},
    (∀ c ∈ l, f c = c) → l.map f = l := by
  intro l
  induction l with
  | nil => intro _; rfl
  | cons a rest ih =>
    intro h
    simp only [List.map_cons]
    rw [h a (List.mem_cons_self _ _), ih (fun c hc => h c (List.mem_cons_of_mem _ hc))]

theorem wsRep_fix : ∀ (l : List Char),
    (∀ c ∈ l, isJsWs c = false) → ∀ (b : Bool), wsRep b l = l := by
  intro l
  induction l with
  | nil => intro _ b; cases b <;> rfl
  | cons a rest ih =>
    intro h b
    have ha : isJsWs a = false := h a (List.mem_cons_self _ _)
    have hrest := ih (fun c hc => h c (List.mem_cons_of_mem _ hc)) false
    simp [wsRep, ha, hrest]

theorem dotRep_fix : ∀ (l : List Char), noDD l = true →
    ∀ (b : Bool), (b = true → ∀ h t, l = h :: t → h ≠ '.') → dotRep b l = l := by
  intro l
  induction l with
  | nil => intro _ b _; cases b <;> rfl
  | cons a rest ih =>
    intro hD b hb
    by_cases ha : a = '.'
    · subst ha
      cases b with
      | true => exact absurd rfl (hb rfl '.' rest rfl)
      | false =>
        have hrest : dotRep true rest = rest := by
          apply ih (noDD_tail hD) true
          intro _ h t hrt
          subst hrt
          simp only [noDD, Bool.and_eq_true, Bool.not_eq_true', Bool.and_eq_false_iff] at hD
          rcases hD.1 with h1 | h1
          · simp at h1
          · simpa using h1
        simp [dotRep, hrest]
    · have hrest : dotRep false rest = rest := ih (noDD_tail hD) false (by simp)
      simp [dotRep, ha, hrest]

theorem sanitizeSteps_fix {l : List Char} (hchars : ∀ c ∈ l, allowedLower c = true)
    (hD : noDD l = true) (hlen : l.length ≤ 100) : sanitizeSteps l = l := by
  have hlow : ∀ c ∈ l, jsToLower c = c := by
    intro c hc
    have h := hchars c hc
    simp only [allowedLower, Bool.and_eq_true, Bool.not_eq_true'] at h
    simp only [jsToLower, h.2, Bool.false_eq_true, if_neg, not_false_iff]
  have hws : ∀ c ∈ l, isJsWs c = false := by
    intro c hc
    have h := hchars c hc
    simp only [allowedLower, Bool.and_eq_true] at h
    exact allowedChar_not_ws h.1
  have hfil : ∀ c ∈ l, allowedChar c = true := by
    intro c hc
    have h := hchars c hc
    simp only [allowedLower, Bool.and_eq_true] at h
    exact h.1
  unfold sanitizeSteps
  rw [map_fix hlow, wsRep_fix l hws false, List.filter_eq_self.mpr hfil,
    dotRep_fix l hD false (by simp), List.take_of_length_le hlen]

/-! ## Claim C3 -/

/-- C3, counterexample.  The claim says the Text Sanitizer's output "is
never the empty string", but a non-empty input consisting only of removed
characters sanitizes to `""`: the `untitled_movie` fallback is taken only
for empty (or non-string) input, not for inputs whose characters are all
stripped. -/
theorem sanitizeFilename_never_empty_counterexample :
    sanitizeFilename "!" = "" ∧ ("!" : String) ≠ "" := by decide

/-- C3, amended.  For every input string the Text Sanitizer's output matches
`^[a-z0-9_.-]\x7b0,100\x7d$` (every character is a lowercase letter, digit,
`_`, `.` or `-`, and the length is at most 100), and the empty input maps to
`"untitled_movie"`; the output can, however, be empty for a non-empty input
all of whose characters are removed. -/
theorem sanitizeFilename_charset_and_length :
    (∀ s : String, (sanitizeFilename s).data.all allowedLower = true ∧
      (sanitizeFilename s).length ≤ 100) ∧
    sanitizeFilename "" = "untitled_movie" := by
  refine ⟨fun s => ⟨?_, ?_⟩, by decide⟩
  · show (sanitizeList s.data).all allowedLower = true
    rw [List.all_eq_true]
    intro c hc
    by_cases h : s.data = []
    · simp only [sanitizeList, if_pos h] at hc
      have hu : ("untitled_movie".data.all allowedLower) = true := by decide
      exact List.all_eq_true.mp hu c hc
    · simp only [sanitizeList, if_neg h] at hc
      exact sanitizeSteps_chars hc
  · show (sanitizeList s.data).length ≤ 100
    by_cases h : s.data = []
    · simp only [sanitizeList, if_pos h]
      decide
    · simp only [sanitizeList, if_neg h]
      exact sanitizeSteps_length _

/-! ## Claim C4 -/

/-- C4, counterexample.  The Text Sanitizer is not idempotent: `"!"`
sanitizes to `""`, and sanitizing `""` yields `"untitled_movie"`. -/
theorem sanitizeFilename_idem_counterexample :
    sanitizeFilename (sanitizeFilename "!") ≠ sanitizeFilename "!" := by decide

/-- C4, amended.  The Text Sanitizer is idempotent on every input whose
sanitization is non-empty: `sanitize (sanitize x) = sanitize x` whenever
`sanitize x ≠ ""` (the sole failure mode being outputs that are empty, which
re-sanitize to the `untitled_movie` fallback). -/
theorem sanitizeFilename_idempotent_of_nonempty :
    ∀ s : String, sanitizeFilename s ≠ "" →
      sanitizeFilename (sanitizeFilename s) = sanitizeFilename s := by
  intro s hne
  have hd : sanitizeList s.data ≠ [] := by
    intro h
    apply hne
    show (⟨sanitizeList s.data⟩ : String) = ""
    rw [h]
  show (⟨sanitizeList (sanitizeList s.data)⟩ : String) = ⟨sanitizeList s.data⟩
  congr 1
  by_cases h : s.data = []
  · simp only [sanitizeList, if_pos h]
    decide
  · simp only [sanitizeList, if_neg h] at hd ⊢
    rw [if_neg hd]
    exact sanitizeSteps_fix (fun c hc => sanitizeSteps_chars hc)
      (sanitizeSteps_noDD _) (sanitizeSteps_length _)

/-- C4, witness for the amended theorem at a concrete input. -/
theorem sanitizeFilename_idempotent_witness :
    sanitizeFilename (sanitizeFilename "Inception 2010") = sanitizeFilename "Inception 2010" :=
  sanitizeFilename_idempotent_of_nonempty "Inception 2010" (by decide)

/-! ## Lemmas about the Structured-Text Extractor -/

theorem fencePrefix_false {c : Char} (rest : List Char) (h : c ≠ '`') :
    ("```".data).isPrefixOf (c :: rest) = false := by
  show (['`', '`', '`'].isPrefixOf (c :: rest)) = false
  simp only [List.isPrefixOf, Bool.and_eq_false_iff, beq_eq_false_iff_ne, ne_eq]
  left
  exact fun hc => h hc.symm

theorem tryMatchAt_of_prefix_false {l : List Char}
    (h : ("```".data).isPrefixOf l = false) : tryMatchAt l = none := by
  unfold tryMatchAt
  rw [if_neg (by simp [h])]

theorem jsStrMatchFence_none : ∀ {l : List Char},
    containsSubL "```".data l = false → jsStrMatchFence l = none := by
  intro l
  induction l with
  | nil => intro _; rfl
  | cons c rest ih =>
    intro h
    rw [containsSubL, Bool.or_eq_false_iff] at h
    show (match tryMatchAt (c :: rest) with
      | some g => some g
      | none => jsStrMatchFence rest) = none
    rw [tryMatchAt_of_prefix_false h.1]
    exact ih h.2

theorem extractL_no_fence {l : List Char} (h : containsSubL "```".data l = false) :
    extractL l = jsTrimL l := by
  unfold extractL
  rw [jsStrMatchFence_none h]

theorem splitAtFence_clean {post : List Char} : ∀ {b : List Char},
    (∀ c ∈ b, c ≠ '`') → splitAtFence (b ++ '`' :: '`' :: '`' :: post) = some (b, post) := by
  intro b
  induction b with
  | nil =>
    intro _
    show splitAtFence ('`' :: '`' :: '`' :: post) = some ([], post)
    unfold splitAtFence
    rw [if_pos (by simp [List.isPrefixOf])]
    rfl
  | cons a b ih =>
    intro hb
    have ha : a ≠ '`' := hb a (List.mem_cons_self _ _)
    show splitAtFence (a :: (b ++ '`' :: '`' :: '`' :: post)) = some (a :: b, post)
    unfold splitAtFence
    rw [if_neg (by simp [fencePrefix_false _ ha])]
    rw [ih (fun c hc => hb c (List.mem_cons_of_mem _ hc))]

/-- `List.dropWhile` is idempotent. -/
theorem dropWhile_idem {p : Char → Bool} : ∀ l : List Char,
    List.dropWhile p (List.dropWhile p l) = List.dropWhile p l := by
  intro l
  induction l with
  | nil => rfl
  | cons c rest ih =>
    by_cases hc : p c = true
    · rw [List.dropWhile_cons, if_pos hc]
      exact ih
    · rw [List.dropWhile_cons, if_neg hc]
      rw [List.dropWhile_cons, if_neg hc]

theorem trimRightL_idem (l : List Char) : trimRightL (trimRightL l) = trimRightL l := by
  unfold trimRightL
  rw [List.reverse_reverse, dropWhile_idem]

/-- The head of a `dropWhile` result fails the predicate. -/
theorem head_dropWhile_false {p : Char → Bool} : ∀ (l : List Char) {c : Char} {t : List Char},
    List.dropWhile p l = c :: t → p c = false := by
  intro l
  induction l with
  | nil => intro c t h; cases h
  | cons a rest ih =>
    intro c t h
    by_cases ha : p a = true
    · rw [List.dropWhile_cons, if_pos ha] at h
      exact ih h
    · rw [List.dropWhile_cons, if_neg ha] at h
      cases h
      rwa [Bool.not_eq_true] at ha

/-- `trimRightL u` is a prefix of `u`: the removed part is the maximal
whitespace suffix. -/
theorem trimRightL_decomp (u : List Char) :
    u = trimRightL u ++ (u.reverse.takeWhile isJsWs).reverse := by
  have h := List.takeWhile_append_dropWhile isJsWs u.reverse
  calc u = u.reverse.reverse := (List.reverse_reverse u).symm
    _ = (List.takeWhile isJsWs u.reverse ++ List.dropWhile isJsWs u.reverse).reverse := by
        rw [h]
    _ = (List.dropWhile isJsWs u.reverse).reverse ++
          (List.takeWhile isJsWs u.reverse).reverse := List.reverse_append _ _

/-- `jsTrimL` (the JS `trim`) is idempotent. -/
theorem jsTrimL_idem (l : List Char) : jsTrimL (jsTrimL l) = jsTrimL l := by
  unfold jsTrimL
  set u := trimLeftL l with hu
  cases he : trimRightL u with
  | nil => rfl
  | cons c t =>
    have hc : isJsWs c = false := by
      have hdec := trimRightL_decomp u
      rw [he] at hdec
      have h2 : List.dropWhile isJsWs l =
          c :: (t ++ (u.reverse.takeWhile isJsWs).reverse) := by
        show trimLeftL l = _
        rw [← hu]
        exact hdec
      exact head_dropWhile_false l h2
    show trimRightL (trimLeftL (c :: t)) = c :: t
    unfold trimLeftL
    rw [List.dropWhile_cons, if_neg (by simp [hc])]
    rw [← he, trimRightL_idem]

/-- The common tail of a fenced-match attempt, once the opener and optional
tag are consumed: the greedy `\s*`, the lazy capture up to the next fence,
and the trailing `\s*` produce exactly the trimmed body. -/
theorem fenceSearch_ws {body : List Char} (post : List Char) (hb : ∀ c ∈ body, c ≠ '`') :
    (match splitAtFence (trimLeftL (body ++ '`' :: '`' :: '`' :: post)) with
      | some (content, _) => some (trimRightL content)
      | none => none) = some (trimRightL (trimLeftL body)) := by
  unfold trimLeftL
  rw [List.dropWhile_append]
  by_cases he : (List.dropWhile isJsWs body).isEmpty = true
  · rw [if_pos he]
    have hdw : List.dropWhile isJsWs ('`' :: '`' :: '`' :: post) =
        '`' :: '`' :: '`' :: post := by
      rw [List.dropWhile_cons, if_neg (by decide)]
    rw [hdw]
    have h0 : splitAtFence (([] : List Char) ++ '`' :: '`' :: '`' :: post) =
        some ([], post) := splitAtFence_clean (by intro c hc; cases hc)
    rw [List.nil_append] at h0
    rw [h0]
    have hbe : List.dropWhile isJsWs body = [] := by
      simpa [List.isEmpty_iff] using he
    rw [hbe]
  · rw [if_neg he]
    have hb2 : ∀ c ∈ List.dropWhile isJsWs body, c ≠ '`' := by
      intro c hc
      exact hb c ((List.dropWhile_sublist isJsWs).subset hc)
    rw [splitAtFence_clean hb2]

theorem tryMatchAt_opener {body : List Char} (post : List Char)
    (hb : ∀ c ∈ body, c ≠ '`') :
    tryMatchAt ('`' :: '`' :: '`' :: 'j' :: 's' :: 'o' :: 'n' ::
        (body ++ '`' :: '`' :: '`' :: post)) = some (trimRightL (trimLeftL body)) := by
  unfold tryMatchAt
  rw [if_pos (by simp [List.isPrefixOf])]
  have htag : dropJsonTag (('`' :: '`' :: '`' :: 'j' :: 's' :: 'o' :: 'n' ::
      (body ++ '`' :: '`' :: '`' :: post)).drop 3) = body ++ '`' :: '`' :: '`' :: post := by
    show dropJsonTag ('j' :: 's' :: 'o' :: 'n' :: (body ++ '`' :: '`' :: '`' :: post)) = _
    unfold dropJsonTag
    rw [if_pos (show List.take 4 ('j' :: 's' :: 'o' :: 'n' ::
      (body ++ '`' :: '`' :: '`' :: post)) = "json".data by rfl)]
    rfl
  rw [htag]
  exact fenceSearch_ws post hb

/-- Any list shorter than `n` followed by a backtick puts a backtick into
the first `n` elements. -/
theorem take_lt_mem_backtick : ∀ (n : Nat) (body rest : List Char), body.length < n →
    '`' ∈ (body ++ '`' :: rest).take n := by
  intro n body
  induction body generalizing n with
  | nil =>
    intro rest hn
    cases n with
    | zero => simp at hn
    | succ m =>
      rw [List.nil_append, List.take_succ_cons]
      exact List.mem_cons_self _ _
  | cons c b ih =>
    intro rest hn
    cases n with
    | zero => simp at hn
    | succ m =>
      have hlt : b.length < m := by simpa using hn
      rw [List.cons_append, List.take_succ_cons]
      exact List.mem_cons_of_mem _ (ih m rest hlt)

/-- A list that begins with `pat` (as its first `pat.length` elements)
satisfies `pat.isPrefixOf`. -/
theorem isPrefixOf_of_take_eq : ∀ (pat l : List Char), l.take pat.length = pat →
    pat.isPrefixOf l = true := by
  intro pat
  induction pat with
  | nil => intro l _; cases l <;> rfl
  | cons p ps ih =>
    intro l h
    cases l with
    | nil => simp at h
    | cons a l2 =>
      rw [show (p :: ps).length = ps.length + 1 from rfl, List.take_succ_cons] at h
      injection h with h1 h2
      subst h1
      simp [List.isPrefixOf, ih l2 h2]

/-- The fenced-match attempt at an untagged opener: when the interior does
not begin with the literal `json`, the optional tag of the regex matches
empty and the capture is the trimmed interior, exactly as for the tagged
opener. -/
theorem tryMatchAt_opener_untagged {body : List Char} (post : List Char)
    (hb : ∀ c ∈ body, c ≠ '`') (htag : ("json".data).isPrefixOf body = false) :
    tryMatchAt ('`' :: '`' :: '`' :: (body ++ '`' :: '`' :: '`' :: post)) =
      some (trimRightL (trimLeftL body)) := by
  unfold tryMatchAt
  rw [if_pos (by simp [List.isPrefixOf])]
  have hc : ¬ ((body ++ '`' :: '`' :: '`' :: post).take 4 = "json".data) := by
    intro h
    by_cases hlen : 4 ≤ body.length
    · rw [List.take_append_of_le_length hlen] at h
      have hp : ("json".data).isPrefixOf body = true :=
        isPrefixOf_of_take_eq _ _ h
      rw [hp] at htag
      cases htag
    · push_neg at hlen
      have hm := take_lt_mem_backtick 4 body ('`' :: '`' :: post) hlen
      rw [h] at hm
      exact absurd hm (by decide)
  have htag2 : dropJsonTag (('`' :: '`' :: '`' ::
      (body ++ '`' :: '`' :: '`' :: post)).drop 3) = body ++ '`' :: '`' :: '`' :: post := by
    show dropJsonTag (body ++ '`' :: '`' :: '`' :: post) = _
    unfold dropJsonTag
    rw [if_neg hc]
  rw [htag2]
  exact fenceSearch_ws post hb

theorem jsStrMatchFence_append : ∀ {pre : List Char}, (∀ c ∈ pre, c ≠ '`') →
    ∀ {c : Char} {t g : List Char}, tryMatchAt (c :: t) = some g →
    jsStrMatchFence (pre ++ c :: t) = some g := by
  intro pre
  induction pre with
  | nil =>
    intro _ c t g hm
    show (match tryMatchAt (c :: t) with
      | some g => some g
      | none => jsStrMatchFence t) = some g
    rw [hm]
  | cons a pre ih =>
    intro hpre c t g hm
    have ha : a ≠ '`' := hpre a (List.mem_cons_self _ _)
    show (match tryMatchAt (a :: (pre ++ c :: t)) with
      | some g => some g
      | none => jsStrMatchFence (pre ++ c :: t)) = some g
    rw [tryMatchAt_of_prefix_false (fencePrefix_false _ ha)]
    exact ih (fun x hx => hpre x (List.mem_cons_of_mem _ hx)) hm

theorem extractL_fenced {pre body post : List Char} (hpre : ∀ c ∈ pre, c ≠ '`')
    (hbody : ∀ c ∈ body, c ≠ '`') (hne : jsTrimL body ≠ []) :
    extractL (pre ++ '`' :: '`' :: '`' :: 'j' :: 's' :: 'o' :: 'n' ::
        (body ++ '`' :: '`' :: '`' :: post)) = jsTrimL body := by
  have hm := tryMatchAt_opener post hbody
  have hg : trimRightL (trimLeftL body) = jsTrimL body := rfl
  rw [hg] at hm
  unfold extractL
  rw [jsStrMatchFence_append hpre hm]
  dsimp only
  rw [if_neg hne]
  exact jsTrimL_idem body

theorem extractL_fenced_untagged {pre body post : List Char} (hpre : ∀ c ∈ pre, c ≠ '`')
    (hbody : ∀ c ∈ body, c ≠ '`') (htag : ("json".data).isPrefixOf body = false)
    (hne : jsTrimL body ≠ []) :
    extractL (pre ++ '`' :: '`' :: '`' ::
        (body ++ '`' :: '`' :: '`' :: post)) = jsTrimL body := by
  have hm := tryMatchAt_opener_untagged post hbody htag
  have hg : trimRightL (trimLeftL body) = jsTrimL body := rfl
  rw [hg] at hm
  unfold extractL
  rw [jsStrMatchFence_append hpre hm]
  dsimp only
  rw [if_neg hne]
  exact jsTrimL_idem body

/-! ## Claim C5 -/

/-- C5, counterexample.  `"``` ```"` contains a fenced block whose interior
trims to the empty string; the claim then demands the output `""`, but the
code's `if (match && match[1])` treats the empty capture as falsy and
returns the whole input trimmed instead. -/
theorem extractJson_empty_interior_counterexample :
    extractJsonFromString "``` ```" = "``` ```" ∧ ("``` ```" : String) ≠ "" := by decide

/-- C5, amended.  When the input contains no triple backtick at all, the
Structured-Text Extractor returns the whole input trimmed (so plain
unfenced JSON that is already trimmed passes through unchanged).  When the
input contains a fenced block — with or without the optional `json` tag
after the opening fence — whose backtick-free interior does not trim to
the empty string, it returns exactly the trimmed interior (for the
untagged form, provided the interior does not itself begin with the
literal `json`, which the regex would consume as a tag).  The spec's
examples hold, including the untagged form and a non-`json` tag, which
counts as part of the interior.  For a block whose interior trims to the
empty string the whole trimmed input is returned instead (see the
counterexample). -/
theorem extractJson_amended :
    (∀ s : String, containsSubS "```" s = false → extractJsonFromString s = jsTrimS s) ∧
    (∀ pre body post : String, (∀ c ∈ pre.data, c ≠ '`') → (∀ c ∈ body.data, c ≠ '`') →
      jsTrimS body ≠ "" →
      extractJsonFromString (pre ++ "```json" ++ body ++ "```" ++ post) = jsTrimS body) ∧
    (∀ pre body post : String, (∀ c ∈ pre.data, c ≠ '`') → (∀ c ∈ body.data, c ≠ '`') →
      jsStartsWithS body "json" = false → jsTrimS body ≠ "" →
      extractJsonFromString (pre ++ "```" ++ body ++ "```" ++ post) = jsTrimS body) ∧
    extractJsonFromString "```json\n\x7b\"a\":1\x7d\n```" = "\x7b\"a\":1\x7d" ∧
    extractJsonFromString "```\n\x7b\"a\":1\x7d\n```" = "\x7b\"a\":1\x7d" ∧
    extractJsonFromString "```xml\nA\n```" = "xml\nA" ∧
    extractJsonFromString "\x7b\"a\":1\x7d" = "\x7b\"a\":1\x7d" ∧
    extractJsonFromString "  Some prose with no fences.  " = "Some prose with no fences." := by
  refine ⟨?_, ?_, ?_, by decide, by decide, by decide, by decide, by decide⟩
  · intro s h
    show (⟨extractL s.data⟩ : String) = ⟨jsTrimL s.data⟩
    exact congrArg String.mk (extractL_no_fence h)
  · intro pre body post hpre hbody hne
    have hne2 : jsTrimL body.data ≠ [] := by
      intro h
      apply hne
      show (⟨jsTrimL body.data⟩ : String) = ""
      rw [h]
    have hdata : (pre ++ "```json" ++ body ++ "```" ++ post).data =
        pre.data ++ '`' :: '`' :: '`' :: 'j' :: 's' :: 'o' :: 'n' ::
          (body.data ++ '`' :: '`' :: '`' :: post.data) := by
      simp only [String.data_append, List.append_assoc]
      rfl
    show (⟨extractL (pre ++ "```json" ++ body ++ "```" ++ post).data⟩ : String) =
      ⟨jsTrimL body.data⟩
    rw [hdata, extractL_fenced hpre hbody hne2]
  · intro pre body post hpre hbody htag hne
    have hne2 : jsTrimL body.data ≠ [] := by
      intro h
      apply hne
      show (⟨jsTrimL body.data⟩ : String) = ""
      rw [h]
    have hdata : (pre ++ "```" ++ body ++ "```" ++ post).data =
        pre.data ++ '`' :: '`' :: '`' ::
          (body.data ++ '`' :: '`' :: '`' :: post.data) := by
      simp only [String.data_append, List.append_assoc]
      rfl
    show (⟨extractL (pre ++ "```" ++ body ++ "```" ++ post).data⟩ : String) =
      ⟨jsTrimL body.data⟩
    rw [hdata, extractL_fenced_untagged hpre hbody htag hne2]

/-- C5, witness for the amended theorem: a `json`-tagged block with an
untrimmed interior, and an untagged block, both wrapped in prose. -/
theorem extractJson_amended_witness :
    extractJsonFromString ("Note: " ++ "```json" ++ "  \x7b\"a\":1\x7d\n" ++ "```" ++ " done") =
      "\x7b\"a\":1\x7d" ∧
    extractJsonFromString ("x " ++ "```" ++ "\nhello world\n" ++ "```" ++ " y") =
      "hello world" :=
  ⟨extractJson_amended.2.1 "Note: " "  \x7b\"a\":1\x7d\n" " done"
      (by decide) (by decide) (by decide),
   extractJson_amended.2.2.1 "x " "\nhello world\n" " y"
      (by decide) (by decide) (by decide) (by decide)⟩

/-! ## Lemmas about the combined metadata-and-theme stage -/

theorem strAppend_ne_empty_left {a : String} (b : String) (h : a ≠ "") :
    a ++ b ≠ "" := by
  intro he
  apply h
  have hd : (a ++ b).data = [] := by rw [he]
  rw [String.data_append] at hd
  rcases List.append_eq_nil.mp hd with ⟨ha, _⟩
  show a = ""
  have hb : a = ⟨a.data⟩ := rfl
  rw [hb, ha]

theorem jsTruthyS_some {v : Option String} (h : jsTruthyS v = true) :
    ∃ e, v = some e ∧ e ≠ "" := by
  cases v with
  | none => cases h
  | some s =>
    refine ⟨s, rfl, ?_⟩
    simpa [jsTruthyS] using h

/-- Errors produced by the parsed-response path are always truthy when the
response signals not-found: either the backfill of line 96 fires, or the
spread `Error` was already truthy. -/
theorem applyParsed_error_nonempty (base : MovieDataWithTheme) (rt : Option String)
    (p : ParsedMovieJson) (h : (applyParsed base rt p).Response = "False") :
    ∃ e, (applyParsed base rt p).Error = some e ∧ e ≠ "" := by
  unfold applyParsed at h ⊢
  set merged : MovieDataWithTheme :=
    { Title := if jsTruthyF p.Title then some (jsOrF p.Title "") else rt
      Year := spreadF p.Year base.Year
      imdbRating := spreadF p.imdbRating base.imdbRating
      Actors := spreadF p.Actors base.Actors
      Genre := spreadF p.Genre base.Genre
      Plot := spreadF p.Plot base.Plot
      Response := if p.Response = some (some "True") then "True" else "False"
      MovieTheme := some (jsOrF p.MovieTheme
        "Theme could not be determined (LLM response missing theme).")
      Error := spreadF p.Error base.Error } with hmerged
  by_cases hc : (merged.Response = "False" && !(jsTruthyS merged.Error)) = true
  · rw [if_pos hc]
    exact ⟨_, rfl, by decide⟩
  · rw [if_neg hc] at h ⊢
    rw [Bool.and_eq_true, not_and_or] at hc
    rcases hc with hc | hc
    · exact absurd (by simpa using h) hc
    · have ht : jsTruthyS merged.Error = true := by
        by_contra hf
        rw [Bool.not_eq_true] at hf
        exact hc (by simp [hf])
      exact jsTruthyS_some ht

/-! ## Claim C1 -/

/-- C1, counterexample.  A parsed model response carrying
`Response: "False"` together with a non-empty `Plot` flows into
`movieDataForNextStep` unnormalized: the stage hands later stages a
metadata record with `Response = "False"` and `plotSummary = "Great plot"`,
violating the claimed `plotSummary === "N/A"` half of the invariant. -/
theorem metadata_notfound_plot_counterexample :
    ((movieDataAndThemeAgent
        { raw_title := "Inception", refinedTitle := some "Inception",
          titleIsUncertain := some false }
        (.success { Response := some (some "False"), Plot := some (some "Great plot"),
                    Error := some (some "Movie not found!") })).1.movieDataFromOMDB.map
      (fun m => (m.Response, m.plotSummary))) = some ("False", "Great plot") ∧
    ("Great plot" : String) ≠ "N/A" := by decide

/-- C1, amended.  For every metadata record the stage produces, `Response =
"False"` implies the `error` field is a non-null, non-empty string; the
`plotSummary = "N/A"` half holds on the paths the stage itself controls
(uncertain title, or a failed model call / parse), but a parsed response
with `Response: "False"` keeps whatever `Plot` the model supplied. -/
theorem metadata_notfound_error_nonempty :
    ∀ (r : PipelineRecord) (o : LlmDataOutcome) (m : MovieMetadata),
      (movieDataAndThemeAgent r o).1.movieDataFromOMDB = some m →
      m.Response = "False" →
      (∃ e, m.error = some e ∧ e ≠ "") ∧
      ((r.titleIsUncertain = some true ∨ (∃ msg, o = .failure msg)) →
        m.plotSummary = "N/A") := by
  intro r o m hm hresp
  by_cases hu : r.titleIsUncertain = some true
  · simp only [movieDataAndThemeAgent, if_pos hu] at hm
    rw [Option.some.injEq] at hm
    subst hm
    refine ⟨⟨_, rfl, ?_⟩, fun _ => rfl⟩
    exact strAppend_ne_empty_left _ (strAppend_ne_empty_left _ (by decide))
  · cases o with
    | failure msg =>
      simp only [movieDataAndThemeAgent, if_neg hu] at hm
      rw [Option.some.injEq] at hm
      subst hm
      refine ⟨⟨_, rfl, strAppend_ne_empty_left _ (by decide)⟩, fun _ => rfl⟩
    | success p =>
      simp only [movieDataAndThemeAgent, if_neg hu] at hm
      rw [Option.some.injEq] at hm
      subst hm
      constructor
      · exact applyParsed_error_nonempty _ _ _ hresp
      · intro hcase
        rcases hcase with hcase | ⟨msg, hcase⟩
        · exact absurd hcase hu
        · cases hcase

/-- C1, witness for the amended theorem: the uncertain-title path at a
concrete input. -/
theorem metadata_notfound_error_nonempty_witness :
    (∃ e, ({ title := some "asdkj", year := "N/A", imdbRating := "N/A",
             mainCast := "N/A", genre := "N/A", plotSummary := "N/A",
             Response := "False",
             error := some "Cannot reliably fetch data or generate theme for uncertain title: \"asdkj\"" } :
        MovieMetadata).error = some e ∧ e ≠ "") ∧
    ((({ raw_title := "asdkj", refinedTitle := some "asdkj",
         titleIsUncertain := some true } : PipelineRecord).titleIsUncertain = some true ∨
      (∃ msg, (LlmDataOutcome.failure "x") = .failure msg)) →
      ({ title := some "asdkj", year := "N/A", imdbRating := "N/A",
         mainCast := "N/A", genre := "N/A", plotSummary := "N/A",
         Response := "False",
         error := some "Cannot reliably fetch data or generate theme for uncertain title: \"asdkj\"" } :
        MovieMetadata).plotSummary = "N/A") :=
  metadata_notfound_error_nonempty _ _ _ (by decide) (by decide)

/-! ## Claim C2 -/

/-- C2, confirmed.  When the title-uncertainty flag is set, the combined
metadata-and-theme stage performs no provider call (the returned
call flag is `false` — and the stage makes no other external call: even the
"OMDB" lookup is only ever a model simulation), the resulting metadata has
`Response = "False"`, and the produced record does not depend on the
provider-outcome parameter at all. -/
theorem metadata_uncertain_no_llm_call :
    ∀ (r : PipelineRecord) (o : LlmDataOutcome), r.titleIsUncertain = some true →
      (movieDataAndThemeAgent r o).2 = false ∧
      ((movieDataAndThemeAgent r o).1.movieDataFromOMDB.map (·.Response)) = some "False" ∧
      (∀ o2 : LlmDataOutcome, (movieDataAndThemeAgent r o).1 = (movieDataAndThemeAgent r o2).1) := by
  intro r o hu
  refine ⟨?_, ?_, ?_⟩
  · simp only [movieDataAndThemeAgent, if_pos hu]
  · simp only [movieDataAndThemeAgent, if_pos hu, Option.map_some]
    rfl
  · intro o2
    simp only [movieDataAndThemeAgent, if_pos hu]

/-- C2, witness at a concrete uncertain input with two distinct provider
outcomes. -/
theorem metadata_uncertain_no_llm_call_witness :
    (movieDataAndThemeAgent
      { raw_title := "asdkjasdkj nonsense", refinedTitle := some "asdkjasdkj nonsense",
        titleIsUncertain := some true } (.failure "provider down")).2 = false ∧
    ((movieDataAndThemeAgent
      { raw_title := "asdkjasdkj nonsense", refinedTitle := some "asdkjasdkj nonsense",
        titleIsUncertain := some true } (.failure "provider down")).1.movieDataFromOMDB.map
        (·.Response)) = some "False" ∧
    (∀ o2 : LlmDataOutcome, (movieDataAndThemeAgent
      { raw_title := "asdkjasdkj nonsense", refinedTitle := some "asdkjasdkj nonsense",
        titleIsUncertain := some true } (.failure "provider down")).1 =
      (movieDataAndThemeAgent
        { raw_title := "asdkjasdkj nonsense", refinedTitle := some "asdkjasdkj nonsense",
          titleIsUncertain := some true } o2).1) :=
  metadata_uncertain_no_llm_call _ _ (by decide)

/-! ## Claim C6 -/

/-- Both branches of the line-95 backfill leave `Actors` at its
spread value. -/
theorem applyParsed_Actors (base : MovieDataWithTheme) (rt : Option String)
    (p : ParsedMovieJson) :
    (applyParsed base rt p).Actors = spreadF p.Actors base.Actors := by
  unfold applyParsed
  dsimp only
  split <;> split <;> rfl

/-- C6, counterexample.  In the canonical pipeline's Metadata Acquisition
Stage (the combined agent of `src/agents/movieDataAndThemeAgent.js`), a
successful structured response with six comma-separated actors flows into
`mainCast` untruncated: the claimed at-most-5 truncation is absent there. -/
theorem mainCast_truncation_counterexample :
    ((movieDataAndThemeAgent
        { raw_title := "Inception", refinedTitle := some "Inception",
          titleIsUncertain := some false }
        (.success { Response := some (some "True"),
                    Actors := some (some "A, B, C, D, E, F") })).1.movieDataFromOMDB.map
      (·.mainCast)) = some "A, B, C, D, E, F" ∧
    ((splitCommaS "A, B, C, D, E, F").map jsTrimS).length = 6 := by decide

/-- C6, amended.  The actor-list truncation belongs to the flat-script
simulator (`omdbSimulatorRunnable`): on a successful structured response it
joins the comma-split, trimmed actor names truncated to at most five.  The
combined agent of the canonical pipeline passes the provider's `Actors`
string through unchanged (falsy values becoming `"N/A"`). -/
theorem mainCast_truncation_amended :
    (∀ (r : PipelineRecord) (rt : String) (d : ParsedMovieJson) (a : String),
      r.refinedTitle = some rt → rt ≠ "" → jsStartsWithS rt "UNCERTAIN:" = false →
      d.Response ≠ some (some "False") → d.Actors = some (some a) → a ≠ "" →
      ((omdbSimulatorRunnable r (.success d)).movieDataFromOMDB.map
          (fun m => (m.Response, m.mainCast))) =
        some ("True", jsOrS (some (String.intercalate ", " (castList a))) "N/A") ∧
      (castList a).length ≤ 5) ∧
    (∀ (r : PipelineRecord) (p : ParsedMovieJson) (a : String),
      ¬(r.titleIsUncertain = some true) → p.Actors = some (some a) → a ≠ "" →
      ((movieDataAndThemeAgent r (.success p)).1.movieDataFromOMDB.map (·.mainCast)) =
        some a) := by
  constructor
  · intro r rt d a hrt hne hstart hresp hact ha
    constructor
    · unfold omdbSimulatorRunnable
      rw [hrt]
      dsimp only
      rw [if_neg (by simp [hne, hstart])]
      rw [if_neg hresp]
      dsimp only [Option.map]
      unfold omdbCast
      rw [hact]
      dsimp only
      rw [if_neg ha]
    · unfold castList
      rw [List.length_take]
      exact min_le_left _ _
  · intro r p a hu hact ha
    simp only [movieDataAndThemeAgent, if_neg hu]
    dsimp only [Option.map]
    rw [Option.some.injEq]
    show (movieDataForNextStep (applyParsed (combinedBase r) r.refinedTitle p)).mainCast = a
    unfold movieDataForNextStep
    dsimp only
    rw [applyParsed_Actors, hact]
    show jsOrS (some a) "N/A" = a
    unfold jsOrS
    dsimp only
    rw [if_neg ha]

/-- C6, witness for the amended theorem at concrete inputs. -/
theorem mainCast_truncation_amended_witness :
    (((omdbSimulatorRunnable
        { raw_title := "Inception", refinedTitle := some "Inception" }
        (.success { Response := some (some "True"),
                    Actors := some (some "A, B, C, D, E, F, G") })).movieDataFromOMDB.map
        (fun m => (m.Response, m.mainCast))) =
      some ("True",
        jsOrS (some (String.intercalate ", " (castList "A, B, C, D, E, F, G"))) "N/A") ∧
      (castList "A, B, C, D, E, F, G").length ≤ 5) ∧
    ((movieDataAndThemeAgent
        { raw_title := "Inception", refinedTitle := some "Inception",
          titleIsUncertain := some false }
        (.success { Response := some (some "True"),
                    Actors := some (some "X, Y") })).1.movieDataFromOMDB.map
      (·.mainCast)) = some "X, Y" :=
  ⟨mainCast_truncation_amended.1 _ "Inception" _ "A, B, C, D, E, F, G"
      (by decide) (by decide) (by decide) (by decide) (by decide) (by decide),
   mainCast_truncation_amended.2 _ _ "X, Y" (by decide) (by decide) (by decide)⟩

/-! ## Claim C7 -/

/-- C7, confirmed.  The Not-Found Branch performs no filesystem call (its
effect list is empty), sets `writtenFilePath` to `null`, and when the
title-uncertainty flag is set the reported reason is the uncertainty
explanation — built only from `raw_title` and `refinedTitle` — so the
message is the uncertainty text and does not depend on the metadata `error`
field at all (uncertainty takes precedence when both are present). -/
theorem notfound_branch_no_write :
    ∀ r : PipelineRecord,
      (handleMovieNotFoundOrUncertain r).2 = [] ∧
      (handleMovieNotFoundOrUncertain r).1.writtenFilePath = some none ∧
      (r.titleIsUncertain = some true →
        ((handleMovieNotFoundOrUncertain r).1.finalMessage =
          some ("Processing halted for \"" ++ titleForMessage r ++ "\": " ++
            ("The initial movie title (\"" ++ r.raw_title ++
             "\") was too uncertain for reliable processing. Refined attempt: \"" ++
             (r.refinedTitle.getD "undefined") ++ "\"."))) ∧
        (∀ (m : MovieMetadata) (e : Option String), r.movieDataFromOMDB = some m →
          (handleMovieNotFoundOrUncertain
              { r with movieDataFromOMDB := some { m with error := e } }).1.finalMessage =
            (handleMovieNotFoundOrUncertain r).1.finalMessage)) := by
  intro r
  refine ⟨rfl, rfl, fun hu => ⟨?_, ?_⟩⟩
  · show some ("Processing halted for \"" ++ titleForMessage r ++ "\": " ++
      notFoundReason r) = _
    rw [notFoundReason, if_pos hu]
  · intro m e hm
    have ht : titleForMessage { r with movieDataFromOMDB := some { m with error := e } } =
        titleForMessage r := by
      unfold titleForMessage
      rw [hm]
      exact rfl
    have hr2 : notFoundReason { r with movieDataFromOMDB := some { m with error := e } } =
        notFoundReason r := by
      unfold notFoundReason
      rw [if_pos hu, if_pos hu]
    show some ("Processing halted for \"" ++
        titleForMessage { r with movieDataFromOMDB := some { m with error := e } } ++ "\": " ++
        notFoundReason { r with movieDataFromOMDB := some { m with error := e } }) =
      some ("Processing halted for \"" ++ titleForMessage r ++ "\": " ++ notFoundReason r)
    rw [ht, hr2]

/-- The record used by the C7 witness: uncertainty flag set and a metadata
error present at the same time. -/
def notFoundDemoRecord : PipelineRecord :=
  { raw_title := "raw t", refinedTitle := some "ref t", titleIsUncertain := some true,
    movieDataFromOMDB := some { title := some "Md T", Response := "False",
                                error := some "boom" } }

/-- C7, witness at a concrete uncertain record that also carries a metadata
error: the message is the uncertainty explanation and survives replacing
the error. -/
theorem notfound_branch_no_write_witness :
    (handleMovieNotFoundOrUncertain notFoundDemoRecord).2 = [] ∧
    (handleMovieNotFoundOrUncertain notFoundDemoRecord).1.writtenFilePath = some none ∧
    (handleMovieNotFoundOrUncertain notFoundDemoRecord).1.finalMessage =
      some "Processing halted for \"Md T\": The initial movie title (\"raw t\") was too uncertain for reliable processing. Refined attempt: \"ref t\"." ∧
    (handleMovieNotFoundOrUncertain
      { notFoundDemoRecord with
          movieDataFromOMDB := some { title := some "Md T", Response := "False",
                                      error := some "other" } }).1.finalMessage =
      (handleMovieNotFoundOrUncertain notFoundDemoRecord).1.finalMessage :=
  ⟨(notfound_branch_no_write notFoundDemoRecord).1,
   (notfound_branch_no_write notFoundDemoRecord).2.1,
   ((notfound_branch_no_write notFoundDemoRecord).2.2 (by decide)).1,
   ((notfound_branch_no_write notFoundDemoRecord).2.2 (by decide)).2
     { title := some "Md T", Response := "False", error := some "boom" } (some "other") rfl⟩

/-! ## Claim C8 -/

/-- The record reaching the Write Branch in the C8 scenario. -/
def writeFailDemoMeta : MovieMetadata :=
  { title := some "Inception", year := "2010", imdbRating := "8.8",
    mainCast := "Leonardo DiCaprio", genre := "Sci-Fi", plotSummary := "A thief...",
    Response := "True", error := none }

/-- The pipeline record for the C8 scenario. -/
def writeFailDemoRecord : PipelineRecord :=
  { raw_title := "Inception 2010", refinedTitle := some "Inception",
    titleIsUncertain := some false, movieDataFromOMDB := some writeFailDemoMeta,
    generatedTheme := some "Dreams within dreams" }

/-- C8, evaluation at the failing input.  When `fs.writeFile` throws, the
Write Branch catches the failure locally (the stage still returns a record,
so the run completes without throwing) and reports it via `finalMessage`;
but contrary to the claim (and to the record model's `null if nothing was
written` convention, which the Not-Found Branch follows), line 580 of
`movieAgent.js` stores the attempted `filePath` in `writtenFilePath`
instead of `null`. -/
theorem fileWriter_writeFail_reports_path :
    (fileWriterAgent writeFailDemoRecord writeFailDemoMeta
        (.ok "inception.txt" "content") (.writeFail "EACCES: permission denied")).1.finalMessage =
      some "Error writing file \"movie_details/inception.txt\" for \"Inception\": EACCES: permission denied" ∧
    (fileWriterAgent writeFailDemoRecord writeFailDemoMeta
        (.ok "inception.txt" "content") (.writeFail "EACCES: permission denied")).1.writtenFilePath =
      some (some "movie_details/inception.txt") ∧
    (some (some "movie_details/inception.txt") : Option (Option String)) ≠ some none := by
  refine ⟨by decide, by decide, by decide⟩

/-! ## Claim C9 -/

/-- C9, counterexample.  With `GOOGLE_API_KEY` present but `OMDB_API_KEY`
missing, the canonical entry point does not exit: `src/main.js` only prints
a warning about the OMDB key and proceeds to run the pipeline (the key is
only quoted inside the simulation prompt), so "either credential missing
implies immediate non-zero exit" is false. -/
theorem startup_missing_omdb_counterexample :
    startupCheck (some "google-key") none = .warnThenRun ∧
    StartupAction.warnThenRun ≠ .exitCode 1 := by decide

/-- C9, amended.  A falsy `GOOGLE_API_KEY` makes `src/llm_config.js` exit
with status 1 before any pipeline run; a falsy `OMDB_API_KEY` alone only
produces a warning and the pipeline still starts; with both keys present
the process runs normally. -/
theorem startup_check_amended :
    ∀ googleKey omdbKey : Option String,
      (jsTruthyS googleKey = false → startupCheck googleKey omdbKey = .exitCode 1) ∧
      (jsTruthyS googleKey = true → jsTruthyS omdbKey = false →
        startupCheck googleKey omdbKey = .warnThenRun) ∧
      (jsTruthyS googleKey = true → jsTruthyS omdbKey = true →
        startupCheck googleKey omdbKey = .run) := by
  intro googleKey omdbKey
  refine ⟨fun hg => ?_, fun hg ho => ?_, fun hg ho => ?_⟩ <;>
    simp [startupCheck, hg]
  · simp [ho]
  · simp [ho]

/-- C9, witness for the amended theorem at concrete environments. -/
theorem startup_check_amended_witness :
    startupCheck none (some "omdb-key") = .exitCode 1 ∧
    startupCheck (some "google-key") none = .warnThenRun ∧
    startupCheck (some "google-key") (some "omdb-key") = .run :=
  ⟨(startup_check_amended none (some "omdb-key")).1 (by decide),
   (startup_check_amended (some "google-key") none).2.1 (by decide) (by decide),
   (startup_check_amended (some "google-key") (some "omdb-key")).2.2 (by decide) (by decide)⟩

/-! ## Frame lemmas for the canonical pipeline's stages (claim C10) -/

theorem titleRefinementAgent_frame (r : PipelineRecord) (t : String) :
    (titleRefinementAgent r t).raw_title = r.raw_title ∧
    (titleRefinementAgent r t).movieDataFromOMDB = r.movieDataFromOMDB ∧
    (titleRefinementAgent r t).generatedTheme = r.generatedTheme ∧
    (titleRefinementAgent r t).finalMessage = r.finalMessage ∧
    (titleRefinementAgent r t).writtenFilePath = r.writtenFilePath := by
  unfold titleRefinementAgent
  dsimp only
  split <;> split <;> exact ⟨rfl, rfl, rfl, rfl, rfl⟩

theorem movieDataAgent_frame (r : PipelineRecord) (o : LlmDataOutcome) :
    (movieDataAndThemeAgent r o).1.raw_title = r.raw_title ∧
    (movieDataAndThemeAgent r o).1.refinedTitle = r.refinedTitle ∧
    (movieDataAndThemeAgent r o).1.titleIsUncertain = r.titleIsUncertain ∧
    (movieDataAndThemeAgent r o).1.finalMessage = r.finalMessage ∧
    (movieDataAndThemeAgent r o).1.writtenFilePath = r.writtenFilePath := by
  by_cases hu : r.titleIsUncertain = some true
  · simp [movieDataAndThemeAgent, hu]
  · cases o <;> simp [movieDataAndThemeAgent, hu]

theorem handleNotFound_frame (r : PipelineRecord) :
    (handleMovieNotFoundOrUncertain r).1.raw_title = r.raw_title ∧
    (handleMovieNotFoundOrUncertain r).1.refinedTitle = r.refinedTitle ∧
    (handleMovieNotFoundOrUncertain r).1.titleIsUncertain = r.titleIsUncertain ∧
    (handleMovieNotFoundOrUncertain r).1.movieDataFromOMDB = r.movieDataFromOMDB ∧
    (handleMovieNotFoundOrUncertain r).1.generatedTheme = r.generatedTheme :=
  ⟨rfl, rfl, rfl, rfl, rfl⟩

theorem fileWriter_frame (r : PipelineRecord) (m : MovieMetadata)
    (o : FileLlmOutcome) (fso : FsOutcome) :
    (fileWriterAgent r m o fso).1.raw_title = r.raw_title ∧
    (fileWriterAgent r m o fso).1.refinedTitle = r.refinedTitle ∧
    (fileWriterAgent r m o fso).1.titleIsUncertain = r.titleIsUncertain ∧
    (fileWriterAgent r m o fso).1.movieDataFromOMDB = r.movieDataFromOMDB ∧
    (fileWriterAgent r m o fso).1.generatedTheme = r.generatedTheme := by
  cases fso <;> exact ⟨rfl, rfl, rfl, rfl, rfl⟩

/-! ## Claim C10 -/

/-- C10, confirmed.  In the canonical pipeline every stage spreads its
input (`\x7b...input, newFields\x7d`), so each stage preserves every field it
does not set; the fields a stage sets are still absent on that stage's
pipeline input (the record only grows); and consequently `raw_title` is
present and unchanged in the final record of every completed run, for every
combination of provider and filesystem outcomes and on both terminal
branches. -/
theorem pipeline_frame_preservation :
    (∀ (r : PipelineRecord) (t : String),
      (titleRefinementAgent r t).raw_title = r.raw_title ∧
      (titleRefinementAgent r t).movieDataFromOMDB = r.movieDataFromOMDB ∧
      (titleRefinementAgent r t).generatedTheme = r.generatedTheme ∧
      (titleRefinementAgent r t).finalMessage = r.finalMessage ∧
      (titleRefinementAgent r t).writtenFilePath = r.writtenFilePath) ∧
    (∀ (r : PipelineRecord) (o : LlmDataOutcome),
      (movieDataAndThemeAgent r o).1.raw_title = r.raw_title ∧
      (movieDataAndThemeAgent r o).1.refinedTitle = r.refinedTitle ∧
      (movieDataAndThemeAgent r o).1.titleIsUncertain = r.titleIsUncertain ∧
      (movieDataAndThemeAgent r o).1.finalMessage = r.finalMessage ∧
      (movieDataAndThemeAgent r o).1.writtenFilePath = r.writtenFilePath) ∧
    (∀ r : PipelineRecord,
      (handleMovieNotFoundOrUncertain r).1.raw_title = r.raw_title ∧
      (handleMovieNotFoundOrUncertain r).1.refinedTitle = r.refinedTitle ∧
      (handleMovieNotFoundOrUncertain r).1.titleIsUncertain = r.titleIsUncertain ∧
      (handleMovieNotFoundOrUncertain r).1.movieDataFromOMDB = r.movieDataFromOMDB ∧
      (handleMovieNotFoundOrUncertain r).1.generatedTheme = r.generatedTheme) ∧
    (∀ (r : PipelineRecord) (m : MovieMetadata) (o : FileLlmOutcome) (fso : FsOutcome),
      (fileWriterAgent r m o fso).1.raw_title = r.raw_title ∧
      (fileWriterAgent r m o fso).1.refinedTitle = r.refinedTitle ∧
      (fileWriterAgent r m o fso).1.titleIsUncertain = r.titleIsUncertain ∧
      (fileWriterAgent r m o fso).1.movieDataFromOMDB = r.movieDataFromOMDB ∧
      (fileWriterAgent r m o fso).1.generatedTheme = r.generatedTheme) ∧
    (∀ (t titleText : String) (o2 : LlmDataOutcome) (o3 : FileLlmOutcome) (fso : FsOutcome),
      (processMoviePipeline t titleText o2 o3 fso).1.raw_title = t ∧
      (initialRecord t).refinedTitle = none ∧
      (initialRecord t).titleIsUncertain = none ∧
      (titleRefinementAgent (initialRecord t) titleText).movieDataFromOMDB = none ∧
      (titleRefinementAgent (initialRecord t) titleText).generatedTheme = none ∧
      (movieDataAndThemeAgent (titleRefinementAgent (initialRecord t) titleText) o2).1.finalMessage = none ∧
      (movieDataAndThemeAgent (titleRefinementAgent (initialRecord t) titleText) o2).1.writtenFilePath = none) := by
  refine ⟨titleRefinementAgent_frame, movieDataAgent_frame, handleNotFound_frame,
    fileWriter_frame, ?_⟩
  intro t titleText o2 o3 fso
  have h1 : (titleRefinementAgent (initialRecord t) titleText).raw_title = t :=
    (titleRefinementAgent_frame _ _).1
  have h2 : ((movieDataAndThemeAgent (titleRefinementAgent (initialRecord t) titleText)
      o2).1).raw_title = t := by
    rw [(movieDataAgent_frame _ _).1, h1]
  refine ⟨?_, rfl, rfl,
    (titleRefinementAgent_frame _ _).2.1,
    (titleRefinementAgent_frame _ _).2.2.1,
    ((movieDataAgent_frame _ _).2.2.2.1).trans ((titleRefinementAgent_frame _ _).2.2.2.1),
    ((movieDataAgent_frame _ _).2.2.2.2).trans ((titleRefinementAgent_frame _ _).2.2.2.2)⟩
  unfold processMoviePipeline
  dsimp only
  split
  · exact ((handleNotFound_frame _).1).trans h2
  · split
    · exact ((fileWriter_frame _ _ _ _).1).trans h2
    · exact h2

end MovieSummarizer
